import Mathlib

/-!
Verification of the wikimapa caching core.

This file shallowly embeds the cache layer of the wikimapa repository:

* `src/hooks/use-wikipedia-cache.ts` — the client-side geospatial coverage
  cache (`loadCache`, `saveCache`, `findCachedArticles`, `addToCache`,
  `calculateDistance`);
* the generic bounded TTL cache `SmartCache` and the cache-key builders
  (`generateArticleCacheKey` and friends) from the cache-utilities module;
* `src/app/api/wikipedia/route.ts` — the server route's early dispatch
  (cache lookup and parameter validation) and the batched page-detail
  fetcher `fetchPageDetails`.

Modelling conventions:

* JavaScript numbers that hold coordinates or radii are modelled as `ℤ` (the cache logic is uniform in the numeric type and compares values exactly; no claim below depends on fractional coordinate values);
  millisecond timestamps (`Date.now()`) as `ℤ`.
* `calculateDistance` is the haversine formula over floating-point numbers;
  it is modelled as an abstract distance function `dist : ℤ → ℤ → ℤ → ℤ → ℤ`
  (arguments `lat1 lon1 lat2 lon2`, result in meters), passed explicitly to
  every definition that calls it.  At coincident points the haversine
  formula returns exactly 0 (all intermediate float operations are exact
  there), which is what `distAtSamePoint` below captures for concrete runs.
* Mutable state (the `localStorage` blob, the `Map` inside `SmartCache`,
  the module-level `apiCache`) is passed and returned explicitly.
* Network calls are oracles: functions supplied as parameters whose result
  describes the outcome of the corresponding `fetch`.
-/

namespace Wikimapa

/-- Latitude/longitude pair in degrees, as used for article coordinates and
request centers in `use-wikipedia-cache.ts`. -/
structure GeoPoint where
  lat : ℤ
  lon : ℤ
deriving DecidableEq

/-- The article record cached by `use-wikipedia-cache.ts` (interface
`WikipediaArticle`).  The `thumbnail` and `wikipedia_link` fields are not
modelled: no cache logic reads them.  `timestamp` is the ISO string set by
`addToCache`, `radius`/`center` the fetch parameters it stamps on. -/
structure WikipediaArticle where
  pageid : Nat
  title : String
  extract : String
  coordinates : Option GeoPoint
  timestamp : Option String
  radius : Option ℤ
  center : Option GeoPoint
deriving DecidableEq

/-- Parameters stored with a cache entry (`CacheEntry.params` in
`use-wikipedia-cache.ts`). -/
structure CacheParams where
  lat : ℤ
  lon : ℤ
  radius : ℤ
  query : Option String
  year : Option Int
  limit : Option Nat
deriving DecidableEq

/-- Request parameters passed to `findCachedArticles` (no `limit`). -/
structure RequestParams where
  lat : ℤ
  lon : ℤ
  radius : ℤ
  query : Option String
  year : Option Int
deriving DecidableEq

/-- A geo-cache entry (`CacheEntry` in `use-wikipedia-cache.ts`). -/
structure CacheEntry where
  articles : List WikipediaArticle
  timestamp : Int
  params : CacheParams
deriving DecidableEq

/-- JavaScript truthiness of `string | undefined`: `undefined` and the empty
string are falsy.  `strFalsy q = true` models `!q` in the source. -/
def strFalsy : Option String → Bool
  | none => true
  | some s => s = ""

/-- JavaScript truthiness of `number | undefined`: `undefined` and `0` are
falsy.  `numFalsy n = true` models `!n` in the source. -/
def numFalsy : Option Int → Bool
  | none => true
  | some n => n = 0

/-- The coverage test of `findCachedArticles` (lines 140–155 of
`use-wikipedia-cache.ts`): transliterates
`isWithinCachedArea && queryMatches && yearMatches`, where
`distance = calculateDistance(params.lat, params.lon, cached.lat, cached.lon)`,
`isWithinCachedArea = cached.radius >= params.radius && distance <= cached.radius - params.radius`,
`queryMatches = !params.query || !cached.query || cached.query === params.query`, and
`yearMatches = !params.year || !cached.year || cached.year === params.year`. -/
def entryCovers (dist : ℤ → ℤ → ℤ → ℤ → ℤ) (params : RequestParams)
    (entry : CacheEntry) : Bool :=
  let cached := entry.params
  let distance := dist params.lat params.lon cached.lat cached.lon
  let isWithinCachedArea :=
    decide (cached.radius ≥ params.radius) &&
      decide (distance ≤ cached.radius - params.radius)
  let queryMatches :=
    strFalsy params.query || strFalsy cached.query ||
      decide (cached.query = params.query)
  let yearMatches :=
    numFalsy params.year || numFalsy cached.year ||
      decide (cached.year = params.year)
  isWithinCachedArea && queryMatches && yearMatches

/-- The per-article filter applied on a cache hit (lines 165–172):
articles without coordinates are kept; an article with coordinates is kept
iff its distance from the request center is at most the request radius. -/
def keepArticle (dist : ℤ → ℤ → ℤ → ℤ → ℤ) (params : RequestParams)
    (a : WikipediaArticle) : Bool :=
  match a.coordinates with
  | none => true
  | some c => decide (dist params.lat params.lon c.lat c.lon ≤ params.radius)

/-- The scan inside `findCachedArticles`: the first entry that covers the
request yields its articles filtered by `keepArticle`; otherwise `none`
(the `return null` cache miss). -/
def findCovering (dist : ℤ → ℤ → ℤ → ℤ → ℤ) (params : RequestParams) :
    List CacheEntry → Option (List WikipediaArticle)
  | [] => none
  | e :: rest =>
    if entryCovers dist params e then
      some (e.articles.filter (keepArticle dist params))
    else
      findCovering dist params rest

/-- `CACHE_EXPIRY = 1000 * 60 * 60 * 24` (24 hours, ms). -/
def CACHE_EXPIRY : Int := 1000 * 60 * 60 * 24

/-- `MAX_CACHE_ENTRIES = 50`. -/
def MAX_CACHE_ENTRIES : Nat := 50

/-- The expiry filter of `loadCache` (lines 90–100): keep entries with
`now - entry.timestamp < CACHE_EXPIRY`.  The `localStorage` blob is the
explicit `stored` argument. -/
def loadCache (now : Int) (stored : List CacheEntry) : List CacheEntry :=
  stored.filter (fun e => decide (now - e.timestamp < CACHE_EXPIRY))

/-- Comparator order of `saveCache`: the JS comparator
`(a, b) => b.timestamp - a.timestamp` sorts by timestamp descending. -/
def byTimestampDesc (a b : CacheEntry) : Prop := b.timestamp ≤ a.timestamp

instance : DecidableRel byTimestampDesc := fun a b =>
  inferInstanceAs (Decidable (b.timestamp ≤ a.timestamp))

/-- `saveCache` (lines 108–124): sort by timestamp descending (a stable
sort, as JavaScript `Array.prototype.sort` is) and keep only the first
`MAX_CACHE_ENTRIES` entries. -/
def saveCache (entries : List CacheEntry) : List CacheEntry :=
  (entries.insertionSort byTimestampDesc).take MAX_CACHE_ENTRIES

/-- `findCachedArticles` (lines 127–185): load the stored cache (dropping
expired entries) and scan it for a covering entry. -/
def findCachedArticles (dist : ℤ → ℤ → ℤ → ℤ → ℤ) (now : Int)
    (stored : List CacheEntry) (params : RequestParams) :
    Option (List WikipediaArticle) :=
  findCovering dist params (loadCache now stored)

/-- The per-article transformation of `addToCache` (lines 202–208):
`coordinates: article.coordinates || {lat, lon}` (a coordinates object is
always truthy, so only a missing one is replaced by the request center),
plus the stamped `timestamp`, `radius` and `center`. -/
def mkStoredArticle (params : CacheParams) (nowIso : String)
    (a : WikipediaArticle) : WikipediaArticle :=
  { a with
    coordinates := some (a.coordinates.getD ⟨params.lat, params.lon⟩)
    timestamp := some nowIso
    radius := some params.radius
    center := some (⟨params.lat, params.lon⟩ : GeoPoint) }

/-- The new entry built by `addToCache` (lines 210–214). -/
def mkCacheEntry (articles : List WikipediaArticle) (params : CacheParams)
    (now : Int) (nowIso : String) : CacheEntry :=
  { articles := articles.map (mkStoredArticle params nowIso)
    timestamp := now
    params := params }

/-- `addToCache` (lines 188–224): load the cache, prepend the new entry,
save (which sorts and truncates). -/
def addToCache (articles : List WikipediaArticle) (params : CacheParams)
    (now : Int) (nowIso : String) (stored : List CacheEntry) :
    List CacheEntry :=
  saveCache (mkCacheEntry articles params now nowIso :: loadCache now stored)

/-- Coverage relation exactly as the specification words it (§3, claim C1):
`E.params.radius >= R.radius`, distance between centers at most
`E.params.radius - R.radius`, `R.query` absent or equal to `E.params.query`,
`R.year` absent or equal to `E.params.year`. -/
def specCoverage (dist : ℤ → ℤ → ℤ → ℤ → ℤ) (params : RequestParams)
    (entry : CacheEntry) : Prop :=
  entry.params.radius ≥ params.radius ∧
    dist params.lat params.lon entry.params.lat entry.params.lon ≤
      entry.params.radius - params.radius ∧
    (params.query = none ∨ params.query = entry.params.query) ∧
    (params.year = none ∨ params.year = entry.params.year)

instance (dist : ℤ → ℤ → ℤ → ℤ → ℤ) (params : RequestParams)
    (entry : CacheEntry) : Decidable (specCoverage dist params entry) := by
  unfold specCoverage; infer_instance

/-- Distance function used for concrete evaluations at coincident centers:
the haversine formula of `calculateDistance` returns exactly 0 when both
points coincide (every intermediate floating-point operation is exact
there), and the concrete runs below only evaluate it at such points. -/
def distAtSamePoint : ℤ → ℤ → ℤ → ℤ → ℤ := fun _ _ _ _ => 0

/-! ### The generic bounded TTL cache (`SmartCache`)

The cache-utilities module keeps entries in a JavaScript `Map`, which
preserves insertion order and has unique keys.  We model the map as an
association list in insertion order; `Map.set` on an existing key updates
the value in place (keeping the original position), on a new key appends. -/

/-- Entry record of `SmartCache` (`CacheEntry<T>` of the utilities module). -/
structure SCEntry (T : Type) where
  data : T
  timestamp : Int
  accessCount : Nat
  lastAccessed : Int
deriving DecidableEq

/-- State of a `SmartCache<T>`: the underlying `Map` (insertion-ordered
association list) plus the construction-time `maxSize` and `ttl`. -/
structure SmartCache (T : Type) where
  entries : List (String × SCEntry T)
  maxSize : Nat
  ttl : Int
deriving DecidableEq

/-- A fresh `new SmartCache(maxSize, ttlMs)`. -/
def SmartCache.mk0 (T : Type) (maxSize : Nat) (ttl : Int) : SmartCache T :=
  ⟨[], maxSize, ttl⟩

/-- `Map.get`: first (and, with unique keys, only) binding of a key. -/
def mapFind {T : Type} : List (String × SCEntry T) → String → Option (SCEntry T)
  | [], _ => none
  | p :: rest, k => if p.1 = k then some p.2 else mapFind rest k

/-- `Map.has` (the raw map test used on line 29 of the utilities module). -/
def mapContains {T : Type} (l : List (String × SCEntry T)) (k : String) : Bool :=
  (mapFind l k).isSome

/-- `Map.set`: update in place if the key exists, otherwise append. -/
def mapSet {T : Type} (l : List (String × SCEntry T)) (k : String)
    (v : SCEntry T) : List (String × SCEntry T) :=
  if mapContains l k then
    l.map (fun p => if p.1 = k then (k, v) else p)
  else
    l ++ [(k, v)]

/-- `Map.delete`: remove the binding of a key (keys are unique in a `Map`). -/
def mapDelete {T : Type} (l : List (String × SCEntry T)) (k : String) :
    List (String × SCEntry T) :=
  l.filter (fun p => decide (p.1 ≠ k))

/-- Key uniqueness invariant of the JavaScript `Map`. -/
def SmartCache.WF {T : Type} (c : SmartCache T) : Prop :=
  (c.entries.map Prod.fst).Nodup

instance {T : Type} (c : SmartCache T) : Decidable c.WF :=
  inferInstanceAs (Decidable ((c.entries.map Prod.fst).Nodup))

/-- `evictLRU` (lines 99–113 of the utilities module): scan the map in
insertion order for the entry with the smallest `lastAccessed`, starting
from `oldestTime = Date.now()` and a null key; `if (oldestKey)` then
delete — note that the scan only updates on a strict `<`, so entries with
`lastAccessed` equal to `now` are never selected, and that the final
truthiness test also rejects the empty-string key. -/
def SmartCache.evictLRU {T : Type} (c : SmartCache T) (now : Int) :
    SmartCache T :=
  let scan := c.entries.foldl
    (fun (acc : Option String × Int) p =>
      if p.2.lastAccessed < acc.2 then (some p.1, p.2.lastAccessed) else acc)
    (none, now)
  match scan.1 with
  | some k => if k = "" then c else { c with entries := mapDelete c.entries k }
  | none => c

/-- `SmartCache.set` (lines 25–39): evict when the cache is at capacity and
the key is new, then write a fresh entry with `accessCount = 1` and both
timestamps equal to `now`. -/
def SmartCache.set {T : Type} (c : SmartCache T) (k : String) (d : T)
    (now : Int) : SmartCache T :=
  let c1 :=
    if c.entries.length ≥ c.maxSize ∧ ¬ mapContains c.entries k then
      c.evictLRU now
    else
      c
  { c1 with entries := mapSet c1.entries k ⟨d, now, 1, now⟩ }

/-- `SmartCache.get` (lines 41–58): miss on absent key; on an expired entry
(`now - timestamp > ttl`) delete it and miss; otherwise bump `accessCount`,
set `lastAccessed := now` and return the data.  The pair is (result, new
state). -/
def SmartCache.get {T : Type} (c : SmartCache T) (k : String) (now : Int) :
    Option T × SmartCache T :=
  match mapFind c.entries k with
  | none => (none, c)
  | some e =>
    if now - e.timestamp > c.ttl then
      (none, { c with entries := mapDelete c.entries k })
    else
      (some e.data,
        { c with
          entries := mapSet c.entries k
            { e with accessCount := e.accessCount + 1, lastAccessed := now } })

/-- `SmartCache.has` (lines 60–71): like `get`'s expiry check (deleting an
expired entry) but without updating access statistics. -/
def SmartCache.has {T : Type} (c : SmartCache T) (k : String) (now : Int) :
    Bool × SmartCache T :=
  match mapFind c.entries k with
  | none => (false, c)
  | some e =>
    if now - e.timestamp > c.ttl then
      (false, { c with entries := mapDelete c.entries k })
    else
      (true, c)

/-- `SmartCache.size` (line 81). -/
def SmartCache.size {T : Type} (c : SmartCache T) : Nat :=
  c.entries.length

/-! ### Cache-key builders -/

/-- Lexicographic comparison of UTF-16 code-unit sequences, the order
JavaScript uses both for `<` on strings and inside the default
`Array.prototype.sort` comparator (which compares the elements converted
to strings). -/
def strLeList : List Char → List Char → Bool
  | [], _ => true
  | _ :: _, [] => false
  | a :: as, b :: bs => if a = b then strLeList as bs else decide (a < b)

/-- JavaScript string order: `strLe s t` iff `s <= t` by UTF-16 code
units. -/
def strLe (s t : String) : Prop := strLeList s.data t.data = true

/-- Decidability witness for `strLe`, also usable as an explicit
instance argument. -/
def strLeDec : DecidableRel strLe := fun s t =>
  inferInstanceAs (Decidable (strLeList s.data t.data = true))

instance : DecidableRel strLe := strLeDec

/-- Order in which the default (comparator-less) JavaScript sort arranges
numbers: by their decimal string representation. -/
def jsNumLe (a b : Nat) : Prop :=
  strLe (toString a) (toString b)

instance : DecidableRel jsNumLe := fun a b =>
  strLeDec (toString a) (toString b)

/-- `pageIds.sort()` — the default JavaScript sort: stable, ordering the
numbers by their string representations. -/
def jsSortNat (l : List Nat) : List Nat :=
  l.insertionSort jsNumLe

/-- `generateArticleCacheKey` (utilities module): in-place default sort of
the id array, then `join(',')` behind the `articles:` literal.  The result
pair is (returned key, final state of the caller's array) — `sort()`
mutates and returns the array it was called on. -/
def generateArticleCacheKeyMut (pageIds : List Nat) : String × List Nat :=
  let sorted := jsSortNat pageIds
  ("articles:" ++ String.intercalate "," (sorted.map toString), sorted)

/-- The key string returned by `generateArticleCacheKey`. -/
def generateArticleCacheKey (pageIds : List Nat) : String :=
  (generateArticleCacheKeyMut pageIds).1

/-- Key builder as the specification words it (claim C8): identifiers
sorted *numerically* before joining. -/
def generateArticleCacheKeyNumericSpec (pageIds : List Nat) : String :=
  "articles:" ++
    String.intercalate ","
      ((pageIds.insertionSort (fun a b => a ≤ b)).map toString)

/-! ### The server route `GET` of `src/app/api/wikipedia/route.ts`

We model the route's early phase: reading the search parameters, building
the response cache key, the pre-validation lookup in the module-level
`apiCache`, and the query / geo / reject dispatch.  The network-backed
continuations are represented only by which branch is taken; the cached
payload is opaque (a `Nat` tag), since the route returns it verbatim. -/

/-- An `apiCache` entry of the route: opaque payload plus store time. -/
structure ApiEntry where
  data : Nat
  timestamp : Int
deriving DecidableEq

/-- `CACHE_DURATION = 5 * 60 * 1000` (route module). -/
def CACHE_DURATION : Int := 5 * 60 * 1000

/-- Raw search parameters of a request: `searchParams.get` returns `null`
(here `none`) for an absent parameter, possibly-empty strings otherwise. -/
structure RouteRequest where
  query : Option String
  lat : Option String
  lon : Option String
  radius : Option String
  year : Option String
  limit : Option String
deriving DecidableEq

/-- JavaScript string interpolation of a `string | null` value:
`` `${null}` `` is the text `null`. -/
def jsShow : Option String → String
  | none => "null"
  | some s => s

/-- `x || d` for `x : string | null`: `null` and the empty string fall back
to the default. -/
def jsOrDefault (o : Option String) (d : String) : String :=
  match o with
  | none => d
  | some "" => d
  | some s => s

/-- JavaScript truthiness of the raw parameters (`if (query)`,
`lat && lon`). -/
def jsTruthy : Option String → Bool
  | none => false
  | some s => decide (s ≠ "")

/-- The response cache key of the route (line 204):
`` `api:${query || 'geo'}:${lat}:${lon}:${radius}:${year}:${limit}` `` —
`radius` and `limit` already defaulted (lines 199/201), `lat`/`lon`/`year`
interpolated raw. -/
def routeCacheKey (r : RouteRequest) : String :=
  "api:" ++ jsOrDefault r.query "geo" ++ ":" ++ jsShow r.lat ++ ":" ++
    jsShow r.lon ++ ":" ++ jsOrDefault r.radius "10000" ++ ":" ++
    jsShow r.year ++ ":" ++ jsOrDefault r.limit "10"

/-- `apiCache.get` of the route's plain `Map` (no expiry side effects). -/
def apiMapFind : List (String × ApiEntry) → String → Option ApiEntry
  | [], _ => none
  | p :: rest, k => if p.1 = k then some p.2 else apiMapFind rest k

/-- Which way the route's early phase ends. -/
inductive RouteStep
  /-- A fresh cached entry was found before validation: respond 200 with
  `success: true` and the cached payload. -/
  | cachedHit (payload : Nat)
  /-- `query` truthy: continue into the text-search branch (network). -/
  | proceedTextSearch
  /-- `lat` and `lon` truthy: continue into the geosearch branch (network). -/
  | proceedGeoSearch
  /-- Neither: respond 400 with `success: false` and the validation error
  `Either query or lat/lon coordinates are required`. -/
  | reject400
deriving DecidableEq

/-- The route's early phase (lines 194–285): compute the cache key, return
a fresh cached response if present, otherwise dispatch on the truthiness of
`query` and `lat && lon`.  The returned cache state is unchanged — no code
on these paths writes to `apiCache`. -/
def routeDispatch (cache : List (String × ApiEntry)) (now : Int)
    (r : RouteRequest) : RouteStep × List (String × ApiEntry) :=
  let key := routeCacheKey r
  let validate : RouteStep :=
    if jsTruthy r.query then .proceedTextSearch
    else if jsTruthy r.lat && jsTruthy r.lon then .proceedGeoSearch
    else .reject400
  match apiMapFind cache key with
  | some e =>
    if now - e.timestamp < CACHE_DURATION then (.cachedHit e.data, cache)
    else (validate, cache)
  | none => (validate, cache)

/-- A fresh (unexpired) lookup in the route's response cache: the data of
the entry under `key` when `now - timestamp < CACHE_DURATION`, else none. -/
def freshLookup (cache : List (String × ApiEntry)) (now : Int)
    (key : String) : Option Nat :=
  match apiMapFind cache key with
  | some e => if now - e.timestamp < CACHE_DURATION then some e.data else none
  | none => none

/-! ### Batched page-detail fetching (`fetchPageDetails`)

Network interaction is abstracted into two oracles: the batched
`action=query&pageids=...` call and the per-page `page/summary` fallback.
The in-flight grouping (three batches at a time via `Promise.all`) only
bounds concurrency; results are concatenated in batch order either way. -/

/-- Page record assembled by `fetchPageDetails` (thumbnail/pageimage
payloads are not modelled; no claim reads them). -/
structure PageR where
  pageid : Nat
  title : String
  extract : String
  coordinates : List GeoPoint
deriving DecidableEq

/-- Outcome of one batched `action=query` call. -/
inductive BatchOutcome
  /-- The call (or its JSON decoding) threw: the `catch` fallback runs. -/
  | threw
  /-- The call succeeded but `data.query?.pages` was absent: the batch
  contributes `[]` (line 184), with no fallback. -/
  | noPages
  /-- The call succeeded with pages (already processed records). -/
  | pages (l : List PageR)

/-- Fields of one `page/summary` response the fallback reads. -/
structure SummaryData where
  title : Option String
  extract : Option String
  coordinates : Option (List GeoPoint)
deriving DecidableEq

/-- The record built from a successful individual summary fetch
(lines 157–164): note `pageid` is the requested id, and `||` defaults
apply to the possibly-missing (or empty, hence falsy) fields. -/
def summaryPage (pageId : Nat) (d : SummaryData) : PageR :=
  { pageid := pageId
    title := jsOrDefault d.title ("Page " ++ toString pageId)
    extract := jsOrDefault d.extract ""
    coordinates := d.coordinates.getD [] }

/-- The placeholder produced when the individual fetch also fails
(lines 167–172): known id, placeholder title, empty extract. -/
def placeholderPage (pageId : Nat) : PageR :=
  { pageid := pageId
    title := "Page " ++ toString pageId
    extract := ""
    coordinates := [] }

/-- One id of the fallback path: individual fetch or placeholder.  The
inner promise never rejects (it catches), so `Promise.allSettled` keeps
every result. -/
def fetchIndividual (indOracle : Nat → Option SummaryData) (pageId : Nat) :
    PageR :=
  match indOracle pageId with
  | some d => summaryPage pageId d
  | none => placeholderPage pageId

/-- Processing of one batch (lines 115–185): the batched call's pages on
success, `[]` when the response held no pages, and the individual-fallback
results (in batch order) when the batched call threw.  The `apiCache`
lookup guarding the call is absorbed into the oracle: a cached batch
behaves as `BatchOutcome.pages`. -/
def processBatch (batchOracle : List Nat → BatchOutcome)
    (indOracle : Nat → Option SummaryData) (batch : List Nat) : List PageR :=
  match batchOracle batch with
  | .pages l => l
  | .noPages => []
  | .threw => batch.map (fetchIndividual indOracle)

/-- `BATCH_SIZE = 20`. -/
def BATCH_SIZE : Nat := 20

/-- The chunking loop of `fetchPageDetails` (lines 102–106): slices of at
most `BATCH_SIZE` ids, in order. -/
def chunkList : List Nat → List (List Nat)
  | [] => []
  | a :: as => (a :: as).take BATCH_SIZE :: chunkList ((a :: as).drop BATCH_SIZE)
termination_by l => l.length
decreasing_by simp [List.length_drop, BATCH_SIZE]; omega

/-- `fetchPageDetails` (lines 98–192): early return on no ids, otherwise
process every batch and concatenate the results in batch order (the
bounded-concurrency grouping preserves order: each `Promise.all` group's
results are pushed in order). -/
def fetchPageDetails (batchOracle : List Nat → BatchOutcome)
    (indOracle : Nat → Option SummaryData) (pageIds : List Nat) : List PageR :=
  match pageIds with
  | [] => []
  | _ :: _ => ((chunkList pageIds).map (processBatch batchOracle indOracle)).flatten

/-! ### Amended coverage relation (for claim C1)

The coverage relation the code actually decides: the query (resp. year)
condition also passes when the *stored* entry has no query (resp. year),
and JavaScript falsiness makes an empty request query (resp. a request
year of `0`) behave as absent. -/

/-- Coverage relation as `entryCovers` actually decides it. -/
def coverageAmended (dist : ℤ → ℤ → ℤ → ℤ → ℤ) (params : RequestParams)
    (entry : CacheEntry) : Prop :=
  entry.params.radius ≥ params.radius ∧
    dist params.lat params.lon entry.params.lat entry.params.lon ≤
      entry.params.radius - params.radius ∧
    (strFalsy params.query = true ∨ strFalsy entry.params.query = true ∨
      entry.params.query = params.query) ∧
    (numFalsy params.year = true ∨ numFalsy entry.params.year = true ∨
      entry.params.year = params.year)

/-! ### Sample data for concrete runs -/

/-- Sample article with coordinates at the origin. -/
def artAtCenter : WikipediaArticle :=
  ⟨1, "Origin", "about the origin", some ⟨0, 0⟩, none, none, none⟩

/-- Sample article without coordinates. -/
def artNoCoords : WikipediaArticle :=
  ⟨2, "Nowhere", "no coordinates", none, none, none, none⟩

/-- Sample article with far-away coordinates. -/
def artFar : WikipediaArticle :=
  ⟨3, "Far", "far away", some ⟨9, 9⟩, none, none, none⟩

/-- Sample request at the origin with radius 1000. -/
def reqSample : RequestParams := ⟨0, 0, 1000, none, none⟩

/-- Sample stored entry at the origin with radius 5000 and no query/year. -/
def entrySample : CacheEntry :=
  ⟨[artAtCenter, artNoCoords, artFar], 0, ⟨0, 0, 5000, none, none, some 50⟩⟩

/-- Distance model for the sample data: `0` between coincident points,
`2000` between the origin and `artFar`, consistent with a metric scale in
meters. -/
def distSample : ℤ → ℤ → ℤ → ℤ → ℤ := fun lat1 lon1 lat2 lon2 =>
  if lat1 = lat2 ∧ lon1 = lon2 then 0 else 2000

/-! ### Helper lemmas -/

theorem findCovering_eq_some {dist : ℤ → ℤ → ℤ → ℤ → ℤ}
    {params : RequestParams} {l : List CacheEntry}
    {res : List WikipediaArticle}
    (h : findCovering dist params l = some res) :
    ∃ e ∈ l, entryCovers dist params e = true ∧
      res = e.articles.filter (keepArticle dist params) := by
  induction l with
  | nil => simp [findCovering] at h
  | cons e rest ih =>
    by_cases hc : entryCovers dist params e = true
    · refine ⟨e, List.mem_cons_self e rest, hc, ?_⟩
      simp [findCovering, hc] at h
      exact h.symm
    · simp only [findCovering, Bool.not_eq_true] at hc
      simp [findCovering, hc] at h
      obtain ⟨e2, he2, hcov, hres⟩ := ih h
      exact ⟨e2, List.mem_cons_of_mem _ he2, hcov, hres⟩

theorem mapFind_mapDelete_self {T : Type} (l : List (String × SCEntry T))
    (k : String) : mapFind (mapDelete l k) k = none := by
  induction l with
  | nil => rfl
  | cons p rest ih =>
    by_cases hk : p.1 = k
    · simpa [mapDelete, hk] using ih
    · simpa [mapDelete, mapFind, hk] using ih

theorem length_mapDelete_of_found {T : Type} (l : List (String × SCEntry T))
    (k : String) (hnd : (l.map Prod.fst).Nodup)
    (hf : (mapFind l k).isSome = true) :
    (mapDelete l k).length + 1 = l.length := by
  induction l with
  | nil => simp [mapFind] at hf
  | cons p rest ih =>
    simp only [List.map_cons, List.nodup_cons] at hnd
    by_cases hk : p.1 = k
    · have hrest : mapDelete rest k = rest := by
        refine List.filter_eq_self.mpr ?_
        intro q hq
        have hqk : q.1 ≠ k := by
          intro hqk
          exact hnd.1 (by simpa [hqk, hk] using List.mem_map_of_mem Prod.fst hq)
        simpa using hqk
      have hcons : mapDelete (p :: rest) k = mapDelete rest k := by
        simp [mapDelete, hk]
      rw [hcons, hrest]
      simp
    · have hf2 : (mapFind rest k).isSome = true := by
        simpa [mapFind, hk] using hf
      have hlen := ih hnd.2 hf2
      have hcons : mapDelete (p :: rest) k = p :: mapDelete rest k := by
        simp [mapDelete, hk]
      rw [hcons]
      simp only [List.length_cons]
      omega

theorem mapFind_mapSet_self {T : Type} (l : List (String × SCEntry T))
    (k : String) (v : SCEntry T) :
    mapFind (mapSet l k v) k = some v := by
  by_cases hc : mapContains l k = true
  · simp only [mapSet, hc, if_true]
    induction l with
    | nil => simp [mapContains, mapFind] at hc
    | cons p rest ih =>
      by_cases hk : p.1 = k
      · simp [mapFind, hk]
      · have hc2 : mapContains rest k = true := by
          simpa [mapContains, mapFind, hk] using hc
        simpa [mapFind, hk] using ih hc2
  · simp only [mapSet, hc, if_false]
    induction l with
    | nil => simp [mapFind]
    | cons p rest ih =>
      by_cases hk : p.1 = k
      · simp [mapContains, mapFind, hk] at hc
      · have hc2 : ¬ mapContains rest k = true := by
          simpa [mapContains, mapFind, hk] using hc
        simpa [mapFind, hk] using ih hc2

/-- Sample cache params for concrete runs. -/
def sampleParams : CacheParams := ⟨0, 0, 5000, none, none, some 50⟩

/-! ### Claim theorems -/

/-- Claim C1 (counterexample): the claimed coverage relation is not what
`findCachedArticles` decides.  A stored entry with *no* query satisfies a
request *with* a query (the code's `!cachedParams.query` disjunct), while
the claim requires the request query to be absent or equal to the entry's:
at this input the code's test is `true` but the claimed relation is false. -/
theorem C1_counterexample :
    ¬ (entryCovers distAtSamePoint ⟨0, 0, 1000, some "x", none⟩
          ⟨[], 0, ⟨0, 0, 5000, none, none, some 50⟩⟩ = true ↔
        specCoverage distAtSamePoint ⟨0, 0, 1000, some "x", none⟩
          ⟨[], 0, ⟨0, 0, 5000, none, none, some 50⟩⟩) := by
  decide

/-- Claim C1 (amended): `findCachedArticles` treats entry `E` as satisfying
request `R` iff `E.params.radius ≥ R.radius`, the distance between the two
centers is at most `E.params.radius - R.radius`, `R.query` is absent or
empty, or `E.params.query` is absent or empty, or they are equal, and
`R.year` is absent or zero, or `E.params.year` is absent or zero, or they
are equal. -/
theorem C1_entryCovers_iff (dist : ℤ → ℤ → ℤ → ℤ → ℤ)
    (params : RequestParams) (entry : CacheEntry) :
    entryCovers dist params entry = true ↔ coverageAmended dist params entry := by
  simp only [entryCovers, coverageAmended, Bool.and_eq_true, Bool.or_eq_true,
    decide_eq_true_eq, ge_iff_le]
  tauto

/-- Claim C2 (code evaluated at the failing input): two `set` calls in the
same millisecond on a full `SmartCache` with `maxSize = 1` leave **two**
entries — `evictLRU` starts its scan at `oldestTime = Date.now()` and only
selects entries with strictly smaller `lastAccessed`, so nothing is evicted
and the size bound is broken.  The claim's strictly-increasing-times
scenario (maxSize 2, keys a/b/c at t = 0/1/2) does behave as stated:
`"a"` is evicted, `"b"` and `"c"` remain. -/
theorem C2_set_overflows_maxSize :
    (((SmartCache.mk0 Nat 1 5000).set "a" 1 0).set "b" 2 0).size = 2 ∧
    (((SmartCache.mk0 Nat 1 5000).set "a" 1 0).set "b" 2 0).maxSize = 1 ∧
    (((((SmartCache.mk0 Nat 2 5000).set "a" 1 0).set "b" 2 1).set "c" 3 2).has
        "a" 2).1 = false ∧
    (((((SmartCache.mk0 Nat 2 5000).set "a" 1 0).set "b" 2 1).set "c" 3 2).has
        "b" 2).1 = true ∧
    (((((SmartCache.mk0 Nat 2 5000).set "a" 1 0).set "b" 2 1).set "c" 3 2).has
        "c" 2).1 = true := by
  decide

/-- Claim C9: `generateArticleCacheKey` sorts the very array it is handed
(JavaScript `sort()` is in place), so after the call the caller's array is
the sorted permutation, and whenever the input was not already in the sort
order the argument has changed. -/
theorem C9_sort_mutates_argument (ids : List Nat) :
    (generateArticleCacheKeyMut ids).2 = jsSortNat ids ∧
      (jsSortNat ids ≠ ids → (generateArticleCacheKeyMut ids).2 ≠ ids) := by
  exact ⟨rfl, fun h => h⟩

/-- Claim C9 (witness): on the numerically sorted input `[2, 10]` the
caller's array ends up reordered to `[10, 2]`. -/
theorem C9_sort_mutates_argument_witness :
    (generateArticleCacheKeyMut [2, 10]).2 ≠ [2, 10] :=
  (C9_sort_mutates_argument [2, 10]).2 (by decide)

/-- Claim C10: every article stored by `addToCache` has coordinates — a
coordinate-less article is assigned the request center — so the
no-coordinates branch of `keepArticle` can never fire on an entry built by
`addToCache`: on such articles the filter is exactly the distance test. -/
theorem C10_stored_articles_have_coords (arts : List WikipediaArticle)
    (params : CacheParams) (now : Int) (iso : String)
    (stored : List CacheEntry) :
    addToCache arts params now iso stored =
        saveCache (mkCacheEntry arts params now iso :: loadCache now stored) ∧
    (∀ a : WikipediaArticle, a.coordinates = none →
        (mkStoredArticle params iso a).coordinates =
          some ⟨params.lat, params.lon⟩) ∧
    (∀ a ∈ (mkCacheEntry arts params now iso).articles,
        a.coordinates.isSome = true) ∧
    (∀ a ∈ (mkCacheEntry arts params now iso).articles,
        ∃ c, a.coordinates = some c ∧
          ∀ (dist : ℤ → ℤ → ℤ → ℤ → ℤ) (req : RequestParams),
            keepArticle dist req a =
              decide (dist req.lat req.lon c.lat c.lon ≤ req.radius)) := by
  refine ⟨rfl, ?_, ?_, ?_⟩
  · intro a ha
    simp [mkStoredArticle, ha]
  · intro a ha
    simp only [mkCacheEntry, List.mem_map] at ha
    obtain ⟨b, _, rfl⟩ := ha
    simp [mkStoredArticle]
  · intro a ha
    simp only [mkCacheEntry, List.mem_map] at ha
    obtain ⟨b, _, rfl⟩ := ha
    refine ⟨b.coordinates.getD ⟨params.lat, params.lon⟩, rfl, ?_⟩
    intro dist req
    simp [keepArticle, mkStoredArticle]

/-- Claim C10 (witness): storing the coordinate-less sample article under
the sample request center gives it exactly that center, and the stored
copy has coordinates. -/
theorem C10_stored_articles_have_coords_witness :
    (mkStoredArticle sampleParams "t" artNoCoords).coordinates =
        some ⟨0, 0⟩ ∧
      (mkStoredArticle sampleParams "t" artNoCoords).coordinates.isSome = true :=
  ⟨(C10_stored_articles_have_coords [artNoCoords] sampleParams 0 "t" []).2.1
      artNoCoords rfl,
    (C10_stored_articles_have_coords [artNoCoords] sampleParams 0 "t" []).2.2.1
      (mkStoredArticle sampleParams "t" artNoCoords) (by decide)⟩

/-- Claim C3: when `findCachedArticles` answers a request from a stored
entry, the result is that entry's article list filtered by the request
disk — every coordinate-less article is kept, an article with coordinates
is in the result iff its distance from the request center is at most the
request radius, and no returned article with coordinates lies strictly
farther than the request radius. -/
theorem C3_hit_filters_articles (dist : ℤ → ℤ → ℤ → ℤ → ℤ) (now : Int)
    (stored : List CacheEntry) (params : RequestParams)
    (res : List WikipediaArticle)
    (h : findCachedArticles dist now stored params = some res) :
    ∃ e ∈ loadCache now stored, entryCovers dist params e = true ∧
      res = e.articles.filter (keepArticle dist params) ∧
      (∀ a ∈ e.articles, a.coordinates = none → a ∈ res) ∧
      (∀ a ∈ e.articles, ∀ c, a.coordinates = some c →
        (a ∈ res ↔ dist params.lat params.lon c.lat c.lon ≤ params.radius)) ∧
      (∀ a ∈ res, ∀ c, a.coordinates = some c →
        dist params.lat params.lon c.lat c.lon ≤ params.radius) := by
  obtain ⟨e, hmem, hcov, hres⟩ := findCovering_eq_some h
  refine ⟨e, hmem, hcov, hres, ?_, ?_, ?_⟩
  · intro a ha hnone
    rw [hres, List.mem_filter]
    exact ⟨ha, by simp [keepArticle, hnone]⟩
  · intro a ha c hc
    rw [hres, List.mem_filter]
    simp [keepArticle, hc, ha]
  · intro a ha c hc
    rw [hres, List.mem_filter] at ha
    have := ha.2
    simpa [keepArticle, hc] using this

/-- Claim C3 (witness): on the sample cache the request is answered from
the stored entry with the near article and the coordinate-less article
kept and the far article dropped. -/
theorem C3_hit_filters_articles_witness :
    findCachedArticles distSample 0 [entrySample] reqSample =
        some [artAtCenter, artNoCoords] ∧
      ∃ e ∈ loadCache 0 [entrySample], entryCovers distSample reqSample e = true ∧
        [artAtCenter, artNoCoords] =
            e.articles.filter (keepArticle distSample reqSample) ∧
        (∀ a ∈ e.articles, a.coordinates = none →
            a ∈ [artAtCenter, artNoCoords]) ∧
        (∀ a ∈ e.articles, ∀ c, a.coordinates = some c →
          (a ∈ [artAtCenter, artNoCoords] ↔
            distSample reqSample.lat reqSample.lon c.lat c.lon ≤
              reqSample.radius)) ∧
        (∀ a ∈ [artAtCenter, artNoCoords], ∀ c, a.coordinates = some c →
          distSample reqSample.lat reqSample.lon c.lat c.lon ≤
            reqSample.radius) :=
  ⟨by decide,
    C3_hit_filters_articles distSample 0 [entrySample] reqSample
      [artAtCenter, artNoCoords] (by decide)⟩

/-- Claim C4: on a present key whose age strictly exceeds `ttl`, `get`
returns absent, deletes the entry (the cache shrinks by one), and an
immediately following `has` at the same instant is already `false`; on a
present, non-expired key, `get` returns the stored data and rewrites the
entry with `accessCount` incremented and `lastAccessed = now`. -/
theorem C4_get_expiry_semantics {T : Type} (c : SmartCache T) (k : String)
    (now : Int) (e : SCEntry T) (hwf : c.WF)
    (hfind : mapFind c.entries k = some e) :
    (now - e.timestamp > c.ttl →
      (c.get k now).1 = none ∧ (c.get k now).2.size + 1 = c.size ∧
        ((c.get k now).2.has k now).1 = false) ∧
    (¬ now - e.timestamp > c.ttl →
      (c.get k now).1 = some e.data ∧
        mapFind (c.get k now).2.entries k =
          some { e with accessCount := e.accessCount + 1,
                        lastAccessed := now }) := by
  constructor
  · intro hexp
    refine ⟨?_, ?_, ?_⟩
    · simp [SmartCache.get, hfind, hexp]
    · have := length_mapDelete_of_found c.entries k hwf (by simp [hfind])
      simpa [SmartCache.get, hfind, hexp, SmartCache.size] using this
    · simp [SmartCache.get, hfind, hexp, SmartCache.has,
        mapFind_mapDelete_self]
  · intro hfresh
    refine ⟨?_, ?_⟩
    · simp [SmartCache.get, hfind, hfresh]
    · simp [SmartCache.get, hfind, hfresh, mapFind_mapSet_self]

/-- Claim C4 (witness): with ttl 10 and an entry created at time 0, a `get`
at time 11 misses, shrinks the cache from one entry to zero and a same-time
`has` is false; a `get` at time 5 hits with the stored data and bumps the
access statistics. -/
theorem C4_get_expiry_semantics_witness :
    (((⟨[("k", ⟨5, 0, 1, 0⟩)], 100, 10⟩ : SmartCache Nat).get "k" 11).1 =
        none ∧
      ((⟨[("k", ⟨5, 0, 1, 0⟩)], 100, 10⟩ : SmartCache Nat).get "k" 11).2.size +
          1 =
        (⟨[("k", ⟨5, 0, 1, 0⟩)], 100, 10⟩ : SmartCache Nat).size ∧
      ((((⟨[("k", ⟨5, 0, 1, 0⟩)], 100, 10⟩ : SmartCache Nat).get "k" 11).2.has
            "k" 11).1 =
        false)) ∧
      (((⟨[("k", ⟨5, 0, 1, 0⟩)], 100, 10⟩ : SmartCache Nat).get "k" 5).1 =
          some 5 ∧
        mapFind
            ((⟨[("k", ⟨5, 0, 1, 0⟩)], 100, 10⟩ : SmartCache Nat).get "k"
                5).2.entries "k" =
          some ⟨5, 0, 2, 5⟩) :=
  ⟨(C4_get_expiry_semantics (⟨[("k", ⟨5, 0, 1, 0⟩)], 100, 10⟩ : SmartCache Nat)
        "k" 11 ⟨5, 0, 1, 0⟩ (by decide) (by decide)).1 (by decide),
    (C4_get_expiry_semantics (⟨[("k", ⟨5, 0, 1, 0⟩)], 100, 10⟩ : SmartCache Nat)
        "k" 5 ⟨5, 0, 1, 0⟩ (by decide) (by decide)).2 (by decide)⟩

instance : IsTotal CacheEntry byTimestampDesc :=
  ⟨fun a b => le_total b.timestamp a.timestamp⟩

instance : IsTrans CacheEntry byTimestampDesc :=
  ⟨fun _ _ _ hab hbc => le_trans hbc hab⟩

theorem loadCache_timestamp_lt {now : Int} {stored : List CacheEntry}
    {e : CacheEntry} (h : e ∈ loadCache now stored) :
    now - e.timestamp < CACHE_EXPIRY := by
  have := List.of_mem_filter h
  simpa using this

theorem saveCache_subset {entries : List CacheEntry} {x : CacheEntry}
    (h : x ∈ saveCache entries) : x ∈ entries := by
  have hx : x ∈ entries.insertionSort byTimestampDesc :=
    List.take_subset _ _ h
  simpa using hx

theorem saveCache_of_length_le {entries : List CacheEntry}
    (h : entries.length ≤ MAX_CACHE_ENTRIES) :
    saveCache entries = entries.insertionSort byTimestampDesc := by
  have hlen : (entries.insertionSort byTimestampDesc).length ≤
      MAX_CACHE_ENTRIES := by
    rw [(List.perm_insertionSort byTimestampDesc entries).length_eq]
    exact h
  exact List.take_of_length_le hlen

theorem loadCache_of_valid {now : Int} {l : List CacheEntry}
    (h : ∀ e ∈ l, now - e.timestamp < CACHE_EXPIRY) :
    loadCache now l = l :=
  List.filter_eq_self.mpr (fun e he => by simpa using h e he)

/-- Claim C5: `addToCache` appends (prepends, then stable-sorts by
timestamp descending) a new entry stamped with the current time and never
dedupes — storing twice with identical inputs grows the (valid part of
the) cache by two and leaves at least two copies of the new entry — and
`saveCache` keeps exactly `min(length, 50)` entries, all from the input,
every kept entry's timestamp being at least every dropped entry's
timestamp (oldest dropped first). -/
theorem C5_store_append_cap :
    (∀ (arts : List WikipediaArticle) (params : CacheParams) (now : Int)
        (iso : String) (stored : List CacheEntry),
      addToCache arts params now iso stored =
        saveCache (mkCacheEntry arts params now iso :: loadCache now stored)) ∧
    (∀ entries : List CacheEntry,
      (saveCache entries).length = min entries.length MAX_CACHE_ENTRIES ∧
      (∀ x ∈ saveCache entries, x ∈ entries) ∧
      (∀ x ∈ saveCache entries,
        ∀ y ∈ (entries.insertionSort byTimestampDesc).drop MAX_CACHE_ENTRIES,
          y.timestamp ≤ x.timestamp)) ∧
    (∀ (arts : List WikipediaArticle) (params : CacheParams) (now : Int)
        (iso : String) (stored : List CacheEntry),
      (loadCache now stored).length + 2 ≤ MAX_CACHE_ENTRIES →
        (addToCache arts params now iso
            (addToCache arts params now iso stored)).length =
          (loadCache now stored).length + 2 ∧
        2 ≤ (addToCache arts params now iso
              (addToCache arts params now iso stored)).count
            (mkCacheEntry arts params now iso)) := by
  refine ⟨fun _ _ _ _ _ => rfl, ?_, ?_⟩
  · intro entries
    refine ⟨?_, fun x hx => saveCache_subset hx, ?_⟩
    · rw [saveCache, List.length_take,
        (List.perm_insertionSort byTimestampDesc entries).length_eq,
        Nat.min_comm]
    · intro x hx y hy
      have hs : List.Sorted byTimestampDesc
          (entries.insertionSort byTimestampDesc) :=
        List.sorted_insertionSort byTimestampDesc entries
      exact hs.rel_of_mem_take_of_mem_drop hx hy
  · intro arts params now iso stored hle
    have hexp : (0 : Int) < CACHE_EXPIRY := by decide
    have hvalid : ∀ x ∈ mkCacheEntry arts params now iso :: loadCache now stored,
        now - x.timestamp < CACHE_EXPIRY := by
      intro x hx
      rcases List.mem_cons.mp hx with hx | hx
      · subst hx
        simpa [mkCacheEntry] using hexp
      · exact loadCache_timestamp_lt hx
    have hinner : addToCache arts params now iso stored =
        (mkCacheEntry arts params now iso ::
          loadCache now stored).insertionSort byTimestampDesc :=
      saveCache_of_length_le (by simp only [List.length_cons]; omega)
    have hinnerPerm : List.Perm (addToCache arts params now iso stored)
        (mkCacheEntry arts params now iso :: loadCache now stored) := by
      rw [hinner]; exact List.perm_insertionSort _ _
    have hinnerLen : (addToCache arts params now iso stored).length =
        (loadCache now stored).length + 1 := by
      rw [hinnerPerm.length_eq, List.length_cons]
    have hload2 : loadCache now (addToCache arts params now iso stored) =
        addToCache arts params now iso stored :=
      loadCache_of_valid (fun x hx => hvalid x (hinnerPerm.mem_iff.mp hx))
    have houter : addToCache arts params now iso
        (addToCache arts params now iso stored) =
        (mkCacheEntry arts params now iso ::
          addToCache arts params now iso stored).insertionSort
          byTimestampDesc := by
      have hstep : addToCache arts params now iso
          (addToCache arts params now iso stored) =
          saveCache (mkCacheEntry arts params now iso ::
            addToCache arts params now iso stored) :=
        congrArg
          (fun l => saveCache (mkCacheEntry arts params now iso :: l)) hload2
      rw [hstep]
      exact saveCache_of_length_le
        (by simp only [List.length_cons, hinnerLen]; omega)
    have houterPerm : List.Perm
        (addToCache arts params now iso
          (addToCache arts params now iso stored))
        (mkCacheEntry arts params now iso ::
          addToCache arts params now iso stored) := by
      rw [houter]; exact List.perm_insertionSort _ _
    constructor
    · rw [houterPerm.length_eq, List.length_cons, hinnerLen]
    · rw [houterPerm.count_eq]
      have h2 := hinnerPerm.count_eq (mkCacheEntry arts params now iso)
      simp only [List.count_cons_self] at h2 ⊢
      omega

/-- Claim C5 (witness): two identical stores into an empty cache leave two
entries, both equal to the new entry. -/
theorem C5_store_append_cap_witness :
    (addToCache [] sampleParams 0 "t"
        (addToCache [] sampleParams 0 "t" [])).length = 2 ∧
      2 ≤ (addToCache [] sampleParams 0 "t"
            (addToCache [] sampleParams 0 "t" [])).count
          (mkCacheEntry [] sampleParams 0 "t") := by
  have h := C5_store_append_cap.2.2 [] sampleParams 0 "t" [] (by decide)
  simpa using h

theorem chunkList_flatten (l : List Nat) : (chunkList l).flatten = l := by
  induction l using chunkList.induct with
  | case1 => rw [chunkList]; rfl
  | case2 a as ih =>
    rw [chunkList]
    simp only [List.flatten_cons, ih, List.take_append_drop]

theorem chunkList_length_le {l b : List Nat} (h : b ∈ chunkList l) :
    b.length ≤ BATCH_SIZE := by
  induction l using chunkList.induct with
  | case1 => rw [chunkList] at h; simp at h
  | case2 a as ih =>
    rw [chunkList] at h
    rcases List.mem_cons.mp h with rfl | h
    · exact List.length_take_le BATCH_SIZE (a :: as)
    · exact ih h

theorem chunkList_count (l : List Nat) :
    (chunkList l).length = (l.length + (BATCH_SIZE - 1)) / BATCH_SIZE := by
  induction l using chunkList.induct with
  | case1 => rw [chunkList]; rfl
  | case2 a as ih =>
    rw [chunkList]
    simp only [List.length_cons, List.length_drop, BATCH_SIZE] at ih ⊢
    rw [ih]
    omega

/-- Claim C6: `fetchPageDetails` splits the ids, in order, into
`⌈n / 20⌉` batches of at most `BATCH_SIZE = 20` ids (45 ids give 3
batches) and concatenates the per-batch results; when a batch's combined
call throws, every id of that batch is fetched individually, and an id
whose individual fetch also fails contributes a placeholder record
carrying that id and an empty extract instead of being omitted. -/
theorem C6_batching_fallback :
    (∀ ids : List Nat, (chunkList ids).flatten = ids ∧
      (chunkList ids).length = (ids.length + (BATCH_SIZE - 1)) / BATCH_SIZE) ∧
    (∀ ids b : List Nat, b ∈ chunkList ids → b.length ≤ BATCH_SIZE) ∧
    (∀ ids : List Nat, ids.length = 45 → (chunkList ids).length = 3) ∧
    (∀ (bo : List Nat → BatchOutcome) (io : Nat → Option SummaryData)
        (ids : List Nat),
      fetchPageDetails bo io ids =
        ((chunkList ids).map (processBatch bo io)).flatten) ∧
    (∀ (bo : List Nat → BatchOutcome) (io : Nat → Option SummaryData)
        (batch : List Nat), bo batch = BatchOutcome.threw →
      processBatch bo io batch = batch.map (fetchIndividual io) ∧
      ∀ i ∈ batch, (fetchIndividual io i).pageid = i ∧
        fetchIndividual io i ∈ processBatch bo io batch ∧
        (io i = none → fetchIndividual io i = placeholderPage i ∧
          (placeholderPage i).extract = "")) := by
  refine ⟨?_, ?_, ?_, ?_, ?_⟩
  · exact fun ids => ⟨chunkList_flatten ids, chunkList_count ids⟩
  · exact fun ids b h => chunkList_length_le h
  · intro ids h
    rw [chunkList_count, h]
    rfl
  · intro bo io ids
    cases ids with
    | nil => rw [fetchPageDetails, chunkList]; rfl
    | cons a as => rfl
  · intro bo io batch hthrew
    have hfall : processBatch bo io batch = batch.map (fetchIndividual io) := by
      simp [processBatch, hthrew]
    refine ⟨hfall, ?_⟩
    intro i hi
    refine ⟨?_, ?_, ?_⟩
    · cases hio : io i <;> simp [fetchIndividual, hio, summaryPage, placeholderPage]
    · rw [hfall]
      exact List.mem_map_of_mem (fetchIndividual io) hi
    · intro hio
      exact ⟨by simp [fetchIndividual, hio], rfl⟩

/-- Claim C6 (witness): 45 ids chunk into 3 batches, and with a throwing
batch oracle and an always-failing individual oracle the single-id batch
`[7]` yields exactly the placeholder for page 7 (empty extract). -/
theorem C6_batching_fallback_witness :
    (chunkList (List.range 45)).length = 3 ∧
    processBatch (fun _ => BatchOutcome.threw) (fun _ => none) [7] =
        [7].map (fetchIndividual (fun _ => none)) ∧
    fetchIndividual (fun _ => none) 7 = placeholderPage 7 ∧
    (placeholderPage 7).extract = "" :=
  ⟨C6_batching_fallback.2.2.1 (List.range 45) (by simp),
    (C6_batching_fallback.2.2.2.2 (fun _ => BatchOutcome.threw)
        (fun _ => none) [7] rfl).1,
    ((C6_batching_fallback.2.2.2.2 (fun _ => BatchOutcome.threw)
        (fun _ => none) [7] rfl).2 7 (by simp)).2.2 rfl⟩

/-- Claim C7 (counterexample): a request with neither query nor lat/lon is
*not* always rejected with 400 — the route consults `apiCache` *before*
validating, and the invalid request's key `api:geo:null:null:10000:null:10`
collides with the key a prior `query="geo"` (default radius/limit) request
stores under; with such an entry present the invalid request is answered
200 `success: true` from cache. -/
theorem C7_counterexample :
    jsTruthy (RouteRequest.mk none none none none none none).query = false ∧
    jsTruthy (RouteRequest.mk none none none none none none).lat = false ∧
    jsTruthy (RouteRequest.mk none none none none none none).lon = false ∧
    (routeDispatch [("api:geo:null:null:10000:null:10", ⟨7, 0⟩)] 1
        (RouteRequest.mk none none none none none none)).1 =
      RouteStep.cachedHit 7 ∧
    RouteStep.cachedHit 7 ≠ RouteStep.reject400 := by
  decide

/-- Claim C7 (amended): a request with neither a truthy query nor truthy
lat/lon coordinates is rejected with HTTP 400 `success: false` — with no
network activity and the cache state unchanged — *provided* the
pre-validation response-cache lookup (which the route performs first)
finds no fresh entry under the request's key. -/
theorem C7_invalid_request_rejected (cache : List (String × ApiEntry))
    (now : Int) (r : RouteRequest) (hq : jsTruthy r.query = false)
    (hgeo : (jsTruthy r.lat && jsTruthy r.lon) = false)
    (hmiss : freshLookup cache now (routeCacheKey r) = none) :
    routeDispatch cache now r = (RouteStep.reject400, cache) := by
  simp only [routeDispatch]
  cases h : apiMapFind cache (routeCacheKey r) with
  | none => simp [hq, hgeo]
  | some e =>
    have hfresh : ¬ (now - e.timestamp < CACHE_DURATION) := by
      simp only [freshLookup, h] at hmiss
      by_contra hc
      simp [hc] at hmiss
    simp [h, hfresh, hq, hgeo]

/-- Claim C7 (witness): with an empty response cache the fully-absent
request is rejected and the cache is left empty. -/
theorem C7_invalid_request_rejected_witness :
    routeDispatch [] 0 (RouteRequest.mk none none none none none none) =
      (RouteStep.reject400, []) :=
  C7_invalid_request_rejected [] 0
    (RouteRequest.mk none none none none none none) (by decide) (by decide)
    (by decide)

theorem strLeList_total : ∀ x y : List Char,
    strLeList x y = true ∨ strLeList y x = true := by
  intro x
  induction x with
  | nil => intro y; left; rfl
  | cons a as ih =>
    intro y
    cases y with
    | nil => right; rfl
    | cons b bs =>
      by_cases hab : a = b
      · subst hab
        simp only [strLeList, if_pos rfl]
        exact ih bs
      · have hba : b ≠ a := fun h => hab h.symm
        rcases lt_or_gt_of_ne hab with h | h
        · left; simp [strLeList, hab, h]
        · right; simp [strLeList, hba, h]

theorem strLeList_trans : ∀ x y z : List Char, strLeList x y = true →
    strLeList y z = true → strLeList x z = true := by
  intro x
  induction x with
  | nil => intro y z _ _; rfl
  | cons a as ih =>
    intro y z hxy hyz
    cases y with
    | nil => simp [strLeList] at hxy
    | cons b bs =>
      cases z with
      | nil => simp [strLeList] at hyz
      | cons c cs =>
        by_cases hab : a = b
        · subst hab
          by_cases hac : a = c
          · subst hac
            simp only [strLeList, if_pos rfl] at hxy hyz ⊢
            exact ih bs cs hxy hyz
          · simp only [strLeList, if_neg hac] at hyz ⊢
            exact hyz
        · simp only [strLeList, if_neg hab, decide_eq_true_eq] at hxy
          by_cases hbc : b = c
          · subst hbc
            simp [strLeList, hab, hxy]
          · simp only [strLeList, if_neg hbc, decide_eq_true_eq] at hyz
            have hac : a < c := lt_trans hxy hyz
            simp [strLeList, ne_of_lt hac, hac]

theorem strLeList_antisymm : ∀ x y : List Char, strLeList x y = true →
    strLeList y x = true → x = y := by
  intro x
  induction x with
  | nil =>
    intro y hxy hyx
    cases y with
    | nil => rfl
    | cons b bs => simp [strLeList] at hyx
  | cons a as ih =>
    intro y hxy hyx
    cases y with
    | nil => simp [strLeList] at hxy
    | cons b bs =>
      by_cases hab : a = b
      · subst hab
        simp only [strLeList, if_pos rfl] at hxy hyx
        rw [ih bs hxy hyx]
      · have hba : b ≠ a := fun h => hab h.symm
        simp only [strLeList, if_neg hab, decide_eq_true_eq] at hxy
        simp only [strLeList, if_neg hba, decide_eq_true_eq] at hyx
        exact absurd hyx (lt_asymm hxy)

instance : IsTotal String strLe :=
  ⟨fun s t => strLeList_total s.data t.data⟩

instance : IsTrans String strLe :=
  ⟨fun s t u => strLeList_trans s.data t.data u.data⟩

instance : IsAntisymm String strLe :=
  ⟨fun s t hst hts => by
    cases s with
    | mk sd =>
      cases t with
      | mk td => exact congrArg String.mk (strLeList_antisymm sd td hst hts)⟩

theorem orderedInsert_map {α β : Type} (f : α → β) (r : β → β → Prop)
    (dr : DecidableRel r) (a : α) (l : List α) :
    (@List.orderedInsert α (fun x y => r (f x) (f y))
        (fun x y => dr (f x) (f y)) a l).map f =
      @List.orderedInsert β r dr (f a) (l.map f) := by
  induction l with
  | nil => rfl
  | cons b bs ih =>
    by_cases h : r (f a) (f b)
    · simp [List.orderedInsert, h]
    · simp [List.orderedInsert, h, ih]

theorem insertionSort_map {α β : Type} (f : α → β) (r : β → β → Prop)
    (dr : DecidableRel r) (l : List α) :
    (@List.insertionSort α (fun x y => r (f x) (f y))
        (fun x y => dr (f x) (f y)) l).map f =
      @List.insertionSort β r dr (l.map f) := by
  induction l with
  | nil => rfl
  | cons a as ih =>
    simp only [List.insertionSort, List.map_cons]
    rw [orderedInsert_map f r dr a _, ih]

/-- Claim C8 (counterexample): `pageIds.sort()` is the *default*
JavaScript sort — lexicographic on the decimal string forms, not numeric —
so `[2, 10]` is keyed as `articles:10,2`, while numeric sorting as the
claim words it would give `articles:2,10`. -/
theorem C8_counterexample :
    generateArticleCacheKey [2, 10] = "articles:10,2" ∧
      generateArticleCacheKeyNumericSpec [2, 10] = "articles:2,10" ∧
      generateArticleCacheKey [2, 10] ≠
        generateArticleCacheKeyNumericSpec [2, 10] := by
  decide

/-- Claim C8 (amended): `generateArticleCacheKey` sorts the ids with the
default JavaScript sort (lexicographically by decimal string, not
numerically); this is still a canonical order, so any two permutations of
the same id list produce the same key string. -/
theorem C8_key_permutation_invariant (l m : List Nat) (h : List.Perm l m) :
    generateArticleCacheKey l = generateArticleCacheKey m := by
  have hsort : ∀ n : List Nat, (jsSortNat n).map toString =
      @List.insertionSort String strLe strLeDec (n.map toString) :=
    fun n => insertionSort_map toString strLe strLeDec n
  have hperm : List.Perm
      (@List.insertionSort String strLe strLeDec (l.map toString))
      (@List.insertionSort String strLe strLeDec (m.map toString)) := by
    refine ((List.perm_insertionSort strLe (l.map toString)).trans ?_).trans
      (List.perm_insertionSort strLe (m.map toString)).symm
    exact h.map toString
  have heq : @List.insertionSort String strLe strLeDec (l.map toString) =
      @List.insertionSort String strLe strLeDec (m.map toString) :=
    List.eq_of_perm_of_sorted hperm
      (List.sorted_insertionSort strLe (l.map toString))
      (List.sorted_insertionSort strLe (m.map toString))
  show "articles:" ++ String.intercalate "," ((jsSortNat l).map toString) =
    "articles:" ++ String.intercalate "," ((jsSortNat m).map toString)
  rw [hsort l, hsort m, heq]

/-- Claim C8 (witness): the two orderings of `[2, 10]` produce the same
key. -/
theorem C8_key_permutation_invariant_witness :
    generateArticleCacheKey [2, 10] = generateArticleCacheKey [10, 2] :=
  C8_key_permutation_invariant [2, 10] [10, 2] (by decide)

end Wikimapa
